import Mathlib

/-!
Verification of the toolset registry (pkg/toolsets) and the MCP parameter
helpers (pkg/gitlab server helpers) of the gitlab-mcp-server repository.

The Go code is embedded shallowly: pointer-mutating methods become
state-passing functions returning the updated value together with the
optional error. Go `error` values are modelled structurally, one
constructor per `errors.New`/`fmt.Errorf` site in the source
(`RegistryError` for the registry, `ParamError` for the parameter
helpers), each constructor carrying the data the format string
interpolates. Go maps (`map[string]*Toolset`) are association
lists with unique keys maintained by `mapInsert`; `map[string]interface{}`
argument bags are association lists of a `GoValue` sum type covering the
dynamic types the source inspects (string, float64, int, bool, nil).
JSON float64 values are modelled as exact rationals: every behaviour the
source distinguishes is decided by the rational value — a float64 passes
the `v != float64(int(v))` round-trip exactly when it is a whole number
inside the 64-bit int range (out-of-range conversions saturate, amd64
semantics, so their round-trip differs), and a nil interface value fails
the `val.(any)` type assertion inside `OptionalParamOK`.
-/

namespace GitlabMcp

/-- Association-list lookup, mirroring a read `m[k]` of a Go map. -/
def lookupKey {β : Type} (m : List (String × β)) (k : String) : Option β :=
  match m with
  | [] => none
  | (k₀, v₀) :: rest => if k₀ = k then some v₀ else lookupKey rest k

/-- Association-list write `m[k] = v` of a Go map: overwrite the entry if
the key is present, append it otherwise. -/
def mapInsert {β : Type} (m : List (String × β)) (k : String) (v : β) :
    List (String × β) :=
  match m with
  | [] => [(k, v)]
  | (k₀, v₀) :: rest =>
    if k₀ = k then (k, v) :: rest else (k₀, v₀) :: mapInsert rest k v

/-- `Toolset` of pkg/toolsets: a named group of MCP tools split into read
tools and write tools, with an enabled flag and a read-only flag. The
tools themselves (`server.ServerTool`, an external library type holding a
tool descriptor and a handler closure) are abstracted as a type parameter. -/
structure Toolset (α : Type) where
  Name : String
  Description : String
  Enabled : Bool
  readOnly : Bool
  writeTools : List α
  readTools : List α
deriving DecidableEq

/-- `NewToolset` of pkg/toolsets: a fresh toolset, disabled and not
read-only, with empty tool lists. -/
def NewToolset (α : Type) (name description : String) : Toolset α :=
  { Name := name
    Description := description
    Enabled := false
    readOnly := false
    writeTools := []
    readTools := [] }

/-- `Toolset.AddReadTools`: append the given tools to the read tools. -/
def Toolset.AddReadTools {α : Type} (t : Toolset α) (tools : List α) : Toolset α :=
  { t with readTools := t.readTools ++ tools }

/-- `Toolset.AddWriteTools`: append the given tools to the write tools. -/
def Toolset.AddWriteTools {α : Type} (t : Toolset α) (tools : List α) : Toolset α :=
  { t with writeTools := t.writeTools ++ tools }

/-- `Toolset.SetReadOnly`: force the toolset into read-only mode. -/
def Toolset.SetReadOnly {α : Type} (t : Toolset α) : Toolset α :=
  { t with readOnly := true }

/-- `Toolset.GetActiveTools`: nil when disabled; a copy of the read tools
when read-only; the read tools followed by the write tools otherwise. -/
def Toolset.GetActiveTools {α : Type} (t : Toolset α) : List α :=
  if !t.Enabled then []
  else if t.readOnly then t.readTools
  else t.readTools ++ t.writeTools

/-- `ToolsetGroup` of pkg/toolsets: a registry of toolsets keyed by name,
with the `everythingOn` flag recording an "all" directive and a global
read-only flag propagated to toolsets added afterwards. -/
structure ToolsetGroup (α : Type) where
  Toolsets : List (String × Toolset α)
  everythingOn : Bool
  readOnly : Bool
deriving DecidableEq

/-- `NewToolsetGroup`: an empty registry with the given read-only flag. -/
def NewToolsetGroup (α : Type) (readOnly : Bool) : ToolsetGroup α :=
  { Toolsets := [], everythingOn := false, readOnly := readOnly }

/-- `ToolsetGroup.AddToolset`: force the incoming toolset read-only when
the group is read-only, then store it under its name. -/
def ToolsetGroup.AddToolset {α : Type} (tg : ToolsetGroup α) (ts : Toolset α) :
    ToolsetGroup α :=
  let ts₁ := if tg.readOnly then ts.SetReadOnly else ts
  { tg with Toolsets := mapInsert tg.Toolsets ts₁.Name ts₁ }

/-- The in-place `ts.Enabled = true` on the registry entry named `k`
performed by `EnableToolset` through the stored pointer. -/
def mapEnable {α : Type} (m : List (String × Toolset α)) (k : String) :
    List (String × Toolset α) :=
  match m with
  | [] => []
  | (k₀, v₀) :: rest =>
    if k₀ = k then (k₀, { v₀ with Enabled := true }) :: rest
    else (k₀, v₀) :: mapEnable rest k

/-- The errors of pkg/toolsets, one constructor per error site:
`unknownToolset name` is `fmt.Errorf("unknown toolset: %s", name)`,
`noToolsetsSpecified` is `errors.New("no toolsets specified to enable")`,
`noValidToolsets` is `errors.New("no valid toolsets were enabled")`. -/
inductive RegistryError where
  | unknownToolset (name : String)
  | noToolsetsSpecified
  | noValidToolsets
deriving DecidableEq

/-- `ToolsetGroup.EnableToolset`: error `unknown toolset: name` when the
name is not a key of the registry, otherwise set that entry enabled. -/
def ToolsetGroup.EnableToolset {α : Type} (tg : ToolsetGroup α) (name : String) :
    ToolsetGroup α × Option RegistryError :=
  match lookupKey tg.Toolsets name with
  | none => (tg, some (.unknownToolset name))
  | some _ => ({ tg with Toolsets := mapEnable tg.Toolsets name }, none)

/-- The loop of `EnableToolsets` over the requested names, threading the
mutated registry and the `enabledCount` counter; the first
`EnableToolset` error stops the loop and is returned with the registry as
mutated so far. -/
def enableToolsetsLoop {α : Type} (tg : ToolsetGroup α) (names : List String)
    (enabledCount : Nat) : ToolsetGroup α × Nat × Option RegistryError :=
  match names with
  | [] => (tg, enabledCount, none)
  | n :: rest =>
    match tg.EnableToolset n with
    | (tg₁, some e) => (tg₁, enabledCount, some e)
    | (tg₁, none) => enableToolsetsLoop tg₁ rest (enabledCount + 1)

/-- `ToolsetGroup.EnableToolsets`: empty input errors; the single name
"all" sets `everythingOn` and enables every registry entry; otherwise
`everythingOn` is cleared and the names are enabled in order, the final
error branch firing only when the loop enabled nothing. The Go guard
`len(names) == 1 && names[0] == "all"` is exactly `names = ["all"]`. -/
def ToolsetGroup.EnableToolsets {α : Type} (tg : ToolsetGroup α)
    (names : List String) : ToolsetGroup α × Option RegistryError :=
  if names = [] then (tg, some .noToolsetsSpecified)
  else if names = ["all"] then
    ({ tg with
        everythingOn := true
        Toolsets := tg.Toolsets.map fun p => (p.1, { p.2 with Enabled := true }) },
      none)
  else
    let tg₁ : ToolsetGroup α := { tg with everythingOn := false }
    match enableToolsetsLoop tg₁ names 0 with
    | (tg₂, _, some e) => (tg₂, some e)
    | (tg₂, enabledCount, none) =>
      if enabledCount = 0 then (tg₂, some .noValidToolsets)
      else (tg₂, none)

/-- Enabling one registry entry rewrites lookups pointwise: the enabled key
reads back with `Enabled := true`, every other key is untouched. -/
theorem lookupKey_mapEnable {α : Type} (m : List (String × Toolset α)) (k j : String) :
    lookupKey (mapEnable m k) j =
      if j = k then (lookupKey m k).map (fun t => { t with Enabled := true })
      else lookupKey m j := by
  induction m with
  | nil =>
    simp only [mapEnable, lookupKey]
    split <;> rfl
  | cons p rest ih =>
    obtain ⟨k₀, v₀⟩ := p
    by_cases hk : k₀ = k
    · subst hk
      by_cases hj : j = k₀
      · subst hj
        simp [mapEnable, lookupKey]
      · have hj₂ : ¬k₀ = j := fun h => hj h.symm
        simp [mapEnable, lookupKey, hj, hj₂]
    · by_cases hj : k₀ = j
      · have hjk : ¬j = k := fun h => hk (hj.trans h)
        simp [mapEnable, lookupKey, hk, hj, hjk]
      · simp [mapEnable, lookupKey, hk, hj, ih]

/-- Case analysis of `EnableToolset`: unknown names return the registry
unchanged with the unknown-toolset error, known names enable the entry. -/
theorem EnableToolset_cases {α : Type} (tg : ToolsetGroup α) (n : String) :
    (lookupKey tg.Toolsets n = none →
      tg.EnableToolset n = (tg, some (.unknownToolset n))) ∧
    (lookupKey tg.Toolsets n ≠ none →
      tg.EnableToolset n = ({ tg with Toolsets := mapEnable tg.Toolsets n }, none)) := by
  constructor
  · intro h
    simp [ToolsetGroup.EnableToolset, h]
  · intro h
    rcases hl : lookupKey tg.Toolsets n with _ | t
    · exact absurd hl h
    · simp [ToolsetGroup.EnableToolset, hl]

/-- `EnableToolset` never touches the `everythingOn` flag. -/
theorem EnableToolset_everythingOn {α : Type} (tg : ToolsetGroup α) (n : String) :
    (tg.EnableToolset n).1.everythingOn = tg.everythingOn := by
  rcases hl : lookupKey tg.Toolsets n with _ | t <;>
    simp [ToolsetGroup.EnableToolset, hl]

/-- The enabling loop never touches the `everythingOn` flag. -/
theorem enableToolsetsLoop_everythingOn {α : Type} (names : List String) :
    ∀ (tg : ToolsetGroup α) (c : Nat),
      (enableToolsetsLoop tg names c).1.everythingOn = tg.everythingOn := by
  induction names with
  | nil => intro tg c; rfl
  | cons n rest ih =>
    intro tg c
    rcases h : tg.EnableToolset n with ⟨tg₁, e⟩
    have he : tg₁.everythingOn = tg.everythingOn := by
      have := EnableToolset_everythingOn tg n
      rw [h] at this
      exact this
    cases e with
    | none => simp [enableToolsetsLoop, h, ih, he]
    | some msg => simp [enableToolsetsLoop, h, he]

/-- Toolsets that are already enabled stay enabled through the rest of the
enabling loop: every step only ever sets `Enabled := true`. -/
theorem enableToolsetsLoop_preserves_enabled {α : Type} (names : List String) :
    ∀ (tg : ToolsetGroup α) (c : Nat) (m : String) (t : Toolset α),
      lookupKey tg.Toolsets m = some t → t.Enabled = true →
      ∃ t₁, lookupKey (enableToolsetsLoop tg names c).1.Toolsets m = some t₁ ∧
        t₁.Enabled = true := by
  induction names with
  | nil =>
    intro tg c m t h ht
    exact ⟨t, h, ht⟩
  | cons n rest ih =>
    intro tg c m t h ht
    rcases hl : lookupKey tg.Toolsets n with _ | u
    · have he := (EnableToolset_cases tg n).1 hl
      simp only [enableToolsetsLoop, he]
      exact ⟨t, h, ht⟩
    · have he := (EnableToolset_cases tg n).2 (by simp [hl])
      simp only [enableToolsetsLoop, he]
      by_cases hm : m = n
      · subst hm
        apply ih _ _ m { t with Enabled := true }
        · show lookupKey (mapEnable tg.Toolsets m) m = _
          rw [lookupKey_mapEnable]
          simp [h]
        · rfl
      · apply ih _ _ m t _ ht
        show lookupKey (mapEnable tg.Toolsets n) m = some t
        rw [lookupKey_mapEnable]
        simp [hm, h]

/-- When every name of `pre` is a key of the registry and `n` is not, the
enabling loop on `pre ++ n :: post` stops at `n` with the unknown-toolset
error for `n`, and every name of `pre` reads back enabled. -/
theorem enableToolsetsLoop_unknown {α : Type} (pre : List String) :
    ∀ (tg : ToolsetGroup α) (n : String) (post : List String) (c : Nat),
      (∀ m ∈ pre, lookupKey tg.Toolsets m ≠ none) →
      lookupKey tg.Toolsets n = none →
      (enableToolsetsLoop tg (pre ++ n :: post) c).2.2 =
          some (.unknownToolset n) ∧
      ∀ m ∈ pre, ∃ t,
        lookupKey (enableToolsetsLoop tg (pre ++ n :: post) c).1.Toolsets m = some t ∧
        t.Enabled = true := by
  induction pre with
  | nil =>
    intro tg n post c _ hn
    have he := (EnableToolset_cases tg n).1 hn
    constructor
    · simp [enableToolsetsLoop, he]
    · intro m hm
      exact absurd hm (List.not_mem_nil m)
  | cons p pre ih =>
    intro tg n post c hpre hn
    have hp : lookupKey tg.Toolsets p ≠ none := hpre p (by simp)
    rcases hpl : lookupKey tg.Toolsets p with _ | u
    · exact absurd hpl hp
    have he := (EnableToolset_cases tg p).2 (by simp [hpl])
    have hnp : ¬n = p := fun h => hp (h ▸ hn)
    have hn₁ : lookupKey (mapEnable tg.Toolsets p) n = none := by
      rw [lookupKey_mapEnable]
      simp [hnp, hn]
    have hpre₁ : ∀ m ∈ pre, lookupKey (mapEnable tg.Toolsets p) m ≠ none := by
      intro m hm
      rw [lookupKey_mapEnable]
      by_cases h : m = p
      · simp [h, hpl]
      · simp only [if_neg h]
        exact hpre m (by simp [hm])
    have step := ih { tg with Toolsets := mapEnable tg.Toolsets p } n post (c + 1)
      hpre₁ hn₁
    constructor
    · simp only [List.cons_append, enableToolsetsLoop, he]
      exact step.1
    · intro m hm
      simp only [List.cons_append, enableToolsetsLoop, he]
      rcases List.mem_cons.mp hm with hm | hm
      · subst hm
        apply enableToolsetsLoop_preserves_enabled (pre ++ n :: post)
          { tg with Toolsets := mapEnable tg.Toolsets m } (c + 1) m
          { u with Enabled := true }
        · show lookupKey (mapEnable tg.Toolsets m) m = _
          rw [lookupKey_mapEnable]
          simp [hpl]
        · rfl
      · exact step.2 m hm

/-- C1: `GetActiveTools` returns the empty list when the toolset is
disabled, exactly the read tools (in insertion order) when enabled and
read-only, and the read tools followed by the write tools when enabled and
not read-only. -/
theorem C1_GetActiveTools_spec {α : Type} (t : Toolset α) :
    (t.Enabled = false → t.GetActiveTools = []) ∧
    (t.Enabled = true → t.readOnly = true → t.GetActiveTools = t.readTools) ∧
    (t.Enabled = true → t.readOnly = false →
      t.GetActiveTools = t.readTools ++ t.writeTools) := by
  refine ⟨fun h => ?_, fun h₁ h₂ => ?_, fun h₁ h₂ => ?_⟩ <;>
    simp [Toolset.GetActiveTools, *]

/-- C4: `EnableToolsets` on the empty name list returns the
no-toolsets-specified error and hands back the registry fully unchanged:
every Enabled flag and the everythingOn flag keep their values. -/
theorem C4_EnableToolsets_empty {α : Type} (g : ToolsetGroup α) :
    g.EnableToolsets [] = (g, some .noToolsetsSpecified) := by
  simp [ToolsetGroup.EnableToolsets]

/-- C3: for a non-empty name list other than the single element "all",
`EnableToolsets` enables the named toolsets in list order; at the first
name missing from the registry it returns the unknown-toolset error for
that name immediately, every toolset named earlier in the list stays
enabled (no rollback), and the call leaves `everythingOn` false. -/
theorem C3_EnableToolsets_partial {α : Type} (g : ToolsetGroup α) (pre : List String)
    (n : String) (post : List String)
    (hall : pre ++ n :: post ≠ ["all"])
    (hpre : ∀ m ∈ pre, lookupKey g.Toolsets m ≠ none)
    (hn : lookupKey g.Toolsets n = none) :
    (g.EnableToolsets (pre ++ n :: post)).2 = some (.unknownToolset n) ∧
    (g.EnableToolsets (pre ++ n :: post)).1.everythingOn = false ∧
    ∀ m ∈ pre, ∃ t,
      lookupKey (g.EnableToolsets (pre ++ n :: post)).1.Toolsets m = some t ∧
      t.Enabled = true := by
  have hne : pre ++ n :: post ≠ [] := by
    cases pre <;> simp
  have hloop := enableToolsetsLoop_unknown pre
    { g with everythingOn := false } n post 0 hpre hn
  have hflag := enableToolsetsLoop_everythingOn (pre ++ n :: post)
    { g with everythingOn := false } 0
  rcases hL : enableToolsetsLoop { g with everythingOn := false } (pre ++ n :: post) 0
    with ⟨tg₂, cnt, e⟩
  rw [hL] at hloop hflag
  obtain ⟨herr, hen⟩ := hloop
  simp only at herr
  subst herr
  simp only [ToolsetGroup.EnableToolsets, if_neg hne, if_neg hall, hL]
  exact ⟨trivial, hflag, hen⟩

/-- A concrete registry holding the toolsets "a" and "b", both disabled. -/
def wsGroup : ToolsetGroup Nat :=
  ((NewToolsetGroup Nat false).AddToolset (NewToolset Nat "a" "")).AddToolset
    (NewToolset Nat "b" "")

/-- C3 witness: on the registry holding "a" and "b", enabling
`["a", "unknown", "b"]` returns the unknown-toolset error for "unknown"
while "a" ends the call enabled and `everythingOn` is false. -/
theorem C3_witness :
    (wsGroup.EnableToolsets (["a"] ++ "unknown" :: ["b"])).2 =
        some (.unknownToolset "unknown") ∧
    (wsGroup.EnableToolsets (["a"] ++ "unknown" :: ["b"])).1.everythingOn = false ∧
    ∀ m ∈ ["a"], ∃ t,
      lookupKey (wsGroup.EnableToolsets (["a"] ++ "unknown" :: ["b"])).1.Toolsets m =
          some t ∧
      t.Enabled = true :=
  C3_EnableToolsets_partial wsGroup ["a"] "unknown" ["b"] (by decide) (by decide)
    (by decide)

/-- C2 (amended): `EnableToolsets` on exactly `["all"]` sets `everythingOn`,
enables every toolset currently in the registry (also when there are none)
and returns success; no other input ever raises `everythingOn` from false
to true — after a call with any other name list, `everythingOn` can only be
true when it was already true before the call and the input was the empty
list, whose error path returns before touching the flag. -/
theorem C2_EnableToolsets_all {α : Type} (g : ToolsetGroup α) (names : List String) :
    (names = ["all"] →
      (g.EnableToolsets names).2 = none ∧
      (g.EnableToolsets names).1.everythingOn = true ∧
      ∀ p ∈ (g.EnableToolsets names).1.Toolsets, p.2.Enabled = true) ∧
    (names ≠ ["all"] → (g.EnableToolsets names).1.everythingOn = true →
      names = [] ∧ g.everythingOn = true) := by
  constructor
  · rintro rfl
    refine ⟨rfl, rfl, ?_⟩
    intro p hp
    have hp₂ : p ∈ g.Toolsets.map (fun q => (q.1, { q.2 with Enabled := true })) := hp
    simp only [List.mem_map] at hp₂
    obtain ⟨q, _, rfl⟩ := hp₂
    rfl
  · intro hne htrue
    by_cases h0 : names = []
    · subst h0
      simp only [ToolsetGroup.EnableToolsets, if_pos rfl] at htrue
      exact ⟨rfl, htrue⟩
    · exfalso
      have hflag := enableToolsetsLoop_everythingOn names
        { g with everythingOn := false } 0
      rcases hL : enableToolsetsLoop { g with everythingOn := false } names 0
        with ⟨tg₂, cnt, e⟩
      rw [hL] at hflag
      simp only at hflag
      simp only [ToolsetGroup.EnableToolsets, if_neg h0, if_neg hne, hL] at htrue
      cases e with
      | some msg =>
        simp only at htrue
        rw [hflag] at htrue
        exact Bool.false_ne_true htrue
      | none =>
        by_cases hc : cnt = 0 <;>
          simp only [hc, if_pos, if_neg, if_true, if_false, reduceIte] at htrue <;>
          rw [hflag] at htrue <;>
          exact Bool.false_ne_true htrue

/-- C2 counterexample: the claim states that no input other than `["all"]`
ever leaves `everythingOn` true, but the empty-list error path returns
before touching the flag: a registry whose `everythingOn` is already true
(here reached by a previous `EnableToolsets ["all"]` call) still has
`everythingOn = true` after `EnableToolsets []`. -/
theorem C2_counterexample :
    (([] : List String) = ["all"] → False) ∧
    ((wsGroup.EnableToolsets ["all"]).1.EnableToolsets []).1.everythingOn = true := by
  decide

/-- A map write reads back the written value at the written key. -/
theorem lookupKey_mapInsert_self {β : Type} (m : List (String × β)) (k : String) (v : β) :
    lookupKey (mapInsert m k v) k = some v := by
  induction m with
  | nil => simp [mapInsert, lookupKey]
  | cons p rest ih =>
    obtain ⟨k₀, v₀⟩ := p
    by_cases h : k₀ = k
    · simp [mapInsert, lookupKey, h]
    · simp [mapInsert, lookupKey, h, ih]

/-- Enabling every entry of the registry map preserves lookups up to the
`Enabled := true` update. -/
theorem lookupKey_map_enableAll {α : Type} (m : List (String × Toolset α)) (j : String) :
    lookupKey (m.map fun p => (p.1, { p.2 with Enabled := true })) j =
      (lookupKey m j).map fun t => { t with Enabled := true } := by
  induction m with
  | nil => rfl
  | cons p rest ih =>
    obtain ⟨k₀, v₀⟩ := p
    by_cases h : k₀ = j
    · simp [lookupKey, h]
    · simp [lookupKey, h, ih]

/-- `EnableToolset` changes no stored toolset's read-only flag. -/
theorem EnableToolset_readOnly_pointwise {α : Type} (tg : ToolsetGroup α)
    (n m : String) :
    ((lookupKey (tg.EnableToolset n).1.Toolsets m).map Toolset.readOnly) =
      (lookupKey tg.Toolsets m).map Toolset.readOnly := by
  rcases hl : lookupKey tg.Toolsets n with _ | u
  · rw [(EnableToolset_cases tg n).1 hl]
  · rw [(EnableToolset_cases tg n).2 (by simp [hl])]
    show ((lookupKey (mapEnable tg.Toolsets n) m).map Toolset.readOnly) = _
    rw [lookupKey_mapEnable]
    by_cases h : m = n
    · subst h
      rw [if_pos rfl]
      cases lookupKey tg.Toolsets m <;> rfl
    · simp [h]

/-- The enabling loop changes no stored toolset's read-only flag. -/
theorem enableToolsetsLoop_readOnly_pointwise {α : Type} (names : List String) :
    ∀ (tg : ToolsetGroup α) (c : Nat) (m : String),
      ((lookupKey (enableToolsetsLoop tg names c).1.Toolsets m).map Toolset.readOnly) =
        (lookupKey tg.Toolsets m).map Toolset.readOnly := by
  induction names with
  | nil => intro tg c m; rfl
  | cons n rest ih =>
    intro tg c m
    have hpt := EnableToolset_readOnly_pointwise tg n m
    rcases h : tg.EnableToolset n with ⟨tg₁, e⟩
    rw [h] at hpt
    cases e with
    | some msg => simpa [enableToolsetsLoop, h] using hpt
    | none =>
      simp only [enableToolsetsLoop, h]
      rw [ih tg₁ (c + 1) m]
      exact hpt

/-- `EnableToolsets` changes no stored toolset's read-only flag. -/
theorem EnableToolsets_readOnly_pointwise {α : Type} (g : ToolsetGroup α)
    (names : List String) (m : String) :
    ((lookupKey (g.EnableToolsets names).1.Toolsets m).map Toolset.readOnly) =
      (lookupKey g.Toolsets m).map Toolset.readOnly := by
  by_cases h0 : names = []
  · subst h0
    rfl
  by_cases h1 : names = ["all"]
  · subst h1
    show ((lookupKey (g.Toolsets.map fun p => (p.1, { p.2 with Enabled := true })) m).map
        Toolset.readOnly) = _
    rw [lookupKey_map_enableAll]
    cases lookupKey g.Toolsets m <;> rfl
  · have hloop := enableToolsetsLoop_readOnly_pointwise names
      { g with everythingOn := false } 0 m
    rcases hL : enableToolsetsLoop { g with everythingOn := false } names 0
      with ⟨tg₂, cnt, e⟩
    rw [hL] at hloop
    simp only [ToolsetGroup.EnableToolsets, if_neg h0, if_neg h1, hL]
    cases e with
    | some msg => exact hloop
    | none =>
      by_cases hc : cnt = 0 <;> simp only [hc, reduceIte] <;> exact hloop

/-- C5: the read-only flag is a one-way ratchet. A fresh toolset starts
with `readOnly = false`; `SetReadOnly` sets it and is idempotent;
`AddReadTools` and `AddWriteTools` leave it untouched; `AddToolset` on a
read-only group stores the incoming toolset forced read-only, and the
stored toolset is never less read-only than the incoming one; and
`EnableToolset` and `EnableToolsets` change no stored toolset's read-only
flag, so no operation of the public contract ever turns `readOnly` from
true back to false. -/
theorem C5_readOnly_ratchet {α : Type} (g : ToolsetGroup α) (t : Toolset α)
    (tools : List α) (name description : String) (n : String)
    (names : List String) (m : String) :
    ((NewToolset α name description).readOnly = false) ∧
    (t.SetReadOnly.readOnly = true) ∧
    (t.SetReadOnly.SetReadOnly = t.SetReadOnly) ∧
    ((t.AddReadTools tools).readOnly = t.readOnly) ∧
    ((t.AddWriteTools tools).readOnly = t.readOnly) ∧
    (g.readOnly = true →
      lookupKey (g.AddToolset t).Toolsets t.Name = some t.SetReadOnly) ∧
    (t.readOnly = true →
      lookupKey (g.AddToolset t).Toolsets t.Name = some t) ∧
    (((lookupKey (g.EnableToolset n).1.Toolsets m).map Toolset.readOnly) =
      (lookupKey g.Toolsets m).map Toolset.readOnly) ∧
    (((lookupKey (g.EnableToolsets names).1.Toolsets m).map Toolset.readOnly) =
      (lookupKey g.Toolsets m).map Toolset.readOnly) := by
  refine ⟨rfl, rfl, rfl, rfl, rfl, ?_, ?_, EnableToolset_readOnly_pointwise g n m,
    EnableToolsets_readOnly_pointwise g names m⟩
  · intro hro
    simp only [ToolsetGroup.AddToolset, hro, if_pos]
    exact lookupKey_mapInsert_self g.Toolsets t.Name t.SetReadOnly
  · intro hro
    have hts : t.SetReadOnly = t := by
      obtain ⟨nm, ds, en, ro, wt, rt⟩ := t
      simp only [Toolset.SetReadOnly] at *
      simp [hro]
    by_cases hg : g.readOnly = true
    · simp only [ToolsetGroup.AddToolset, hg, if_pos, hts]
      exact lookupKey_mapInsert_self g.Toolsets t.Name t
    · simp only [Bool.not_eq_true] at hg
      simp only [ToolsetGroup.AddToolset, hg, Bool.false_eq_true, if_false]
      exact lookupKey_mapInsert_self g.Toolsets t.Name t

/-- Every error the enabling loop can produce is an unknown-toolset error. -/
theorem enableToolsetsLoop_error_shape {α : Type} (names : List String) :
    ∀ (tg : ToolsetGroup α) (c : Nat),
      (enableToolsetsLoop tg names c).2.2 = none ∨
      ∃ n, (enableToolsetsLoop tg names c).2.2 = some (.unknownToolset n) := by
  induction names with
  | nil => intro tg c; exact Or.inl rfl
  | cons n rest ih =>
    intro tg c
    rcases hl : lookupKey tg.Toolsets n with _ | u
    · have he := (EnableToolset_cases tg n).1 hl
      right
      exact ⟨n, by simp [enableToolsetsLoop, he]⟩
    · have he := (EnableToolset_cases tg n).2 (by simp [hl])
      simpa [enableToolsetsLoop, he] using
        ih { tg with Toolsets := mapEnable tg.Toolsets n } (c + 1)

/-- When the enabling loop completes without error, it has counted every
name of the list. -/
theorem enableToolsetsLoop_count {α : Type} (names : List String) :
    ∀ (tg : ToolsetGroup α) (c : Nat),
      (enableToolsetsLoop tg names c).2.2 = none →
      (enableToolsetsLoop tg names c).2.1 = c + names.length := by
  induction names with
  | nil => intro tg c _; rfl
  | cons n rest ih =>
    intro tg c hnone
    rcases hl : lookupKey tg.Toolsets n with _ | u
    · have he := (EnableToolset_cases tg n).1 hl
      simp [enableToolsetsLoop, he] at hnone
    · have he := (EnableToolset_cases tg n).2 (by simp [hl])
      simp only [enableToolsetsLoop, he] at hnone ⊢
      rw [ih _ (c + 1) hnone]
      simp only [List.length_cons]
      omega

/-- C10: the final "no valid toolsets were enabled" branch of
`EnableToolsets` is dead code: every non-empty input other than the single
name "all" either stops inside the loop with an unknown-toolset error or
completes the loop having counted every name, so the count is at least 1
and the call succeeds. -/
theorem C10_noValidToolsets_unreachable {α : Type} (g : ToolsetGroup α)
    (names : List String) (h₀ : names ≠ []) (h₁ : names ≠ ["all"]) :
    (g.EnableToolsets names).2 ≠ some RegistryError.noValidToolsets ∧
    ((∃ n, (g.EnableToolsets names).2 = some (.unknownToolset n)) ∨
      (g.EnableToolsets names).2 = none) := by
  have hshape := enableToolsetsLoop_error_shape names
    { g with everythingOn := false } 0
  have hcount := enableToolsetsLoop_count names
    { g with everythingOn := false } 0
  rcases hL : enableToolsetsLoop { g with everythingOn := false } names 0
    with ⟨tg₂, cnt, e⟩
  rw [hL] at hshape hcount
  simp only [ToolsetGroup.EnableToolsets, if_neg h₀, if_neg h₁, hL]
  cases e with
  | some msg =>
    rcases hshape with h | ⟨n, hn⟩
    · exact absurd h (by simp)
    · simp only [Option.some.injEq] at hn
      subst hn
      refine ⟨by simp, Or.inl ⟨n, rfl⟩⟩
  | none =>
    have hc : cnt = 0 + names.length := hcount rfl
    have hpos : cnt ≠ 0 := by
      rcases names with _ | ⟨x, xs⟩
      · exact absurd rfl h₀
      · simp [hc]
    simp only [if_neg hpos]
    exact ⟨by simp, Or.inr trivial⟩

/-- C10 witness: on the registry holding "a" and "b", enabling `["a"]`
succeeds and in particular does not hit the dead final branch. -/
theorem C10_witness :
    (wsGroup.EnableToolsets ["a"]).2 ≠ some RegistryError.noValidToolsets ∧
    ((∃ n, (wsGroup.EnableToolsets ["a"]).2 = some (.unknownToolset n)) ∨
      (wsGroup.EnableToolsets ["a"]).2 = none) :=
  C10_noValidToolsets_unreachable wsGroup ["a"] (by decide) (by decide)

/-- A dynamic value of a tool-call argument map, one constructor per
dynamic type the parameter helpers inspect. JSON decoding yields `str`,
`num` (float64, modelled as an exact rational), `bool` and `null`; `int`
covers arguments set natively in tests and callers. -/
inductive GoValue where
  | str (s : String)
  | num (q : ℚ)
  | int (n : Int)
  | bool (b : Bool)
  | null
deriving DecidableEq

/-- The name Go fmt prints for a value with the %T verb, per dynamic type. -/
def goTypeName : GoValue → String
  | .str _ => "string"
  | .num _ => "float64"
  | .int _ => "int"
  | .bool _ => "bool"
  | .null => "<nil>"

/-- The `r.Params.Arguments` map of a tool-call request. -/
def Args : Type := List (String × GoValue)

/-- The errors of the parameter helpers, one constructor per error site:
`missingParameter p` is "missing required parameter: p"; `wrongType` is
"parameter p is not of expected type E, got G"; `emptyValue p` is
"required parameter p cannot be empty or zero value"; `notWholeNumber`
is "parameter p must be a whole number, got v"; `invalidIntegerString`
is "parameter p must be a valid integer string, got s";
`notConvertible` is "parameter p must be convertible to an integer, got
T"; `invalidParam p e` is the pagination wrapping "invalid p parameter:
e" of an inner error by `%w`. -/
inductive ParamError where
  | missingParameter (p : String)
  | wrongType (p expected got : String)
  | emptyValue (p : String)
  | notWholeNumber (p : String) (v : ℚ)
  | invalidIntegerString (p s : String)
  | notConvertible (p got : String)
  | invalidParam (p : String) (e : ParamError)
deriving DecidableEq

instance {ε α : Type} [DecidableEq ε] [DecidableEq α] : DecidableEq (Except ε α) :=
  fun x y =>
    match x, y with
    | .error a, .error b =>
      if h : a = b then isTrue (by rw [h])
      else isFalse fun hh => h (Except.error.inj hh)
    | .ok a, .ok b =>
      if h : a = b then isTrue (by rw [h])
      else isFalse fun hh => h (Except.ok.inj hh)
    | .error _, .ok _ => isFalse fun hh => Except.noConfusion hh
    | .ok _, .error _ => isFalse fun hh => Except.noConfusion hh

/-- An instantiation of the Go type parameter `T comparable` of
`requiredParam`: the type assertion `val.(T)` (`none` when the dynamic
type is not `T`), the zero value `var zero T`, and the %T name of `T`. -/
structure GoType (T : Type) where
  cast : GoValue → Option T
  zero : T
  name : String

/-- `requiredParam[T]` of the server helpers: absent key fails as missing;
a value whose dynamic type is not `T` fails as a type mismatch reporting
the expected and actual type names; a value equal to the zero value of
`T` fails as empty; otherwise the value is returned unchanged. -/
def requiredParam {T : Type} [DecidableEq T] (g : GoType T) (args : Args)
    (p : String) : Except ParamError T :=
  match lookupKey args p with
  | none => .error (.missingParameter p)
  | some val =>
    match g.cast val with
    | none => .error (.wrongType p g.name (goTypeName val))
    | some value =>
      if value = g.zero then .error (.emptyValue p)
      else .ok value

/-- The Go `string` instantiation of the type parameter: the assertion
succeeds exactly on `str` values, and the zero value is the empty string. -/
def goString : GoType String :=
  { cast := fun v => match v with | .str s => some s | _ => none
    zero := ""
    name := "string" }

/-- The numeric value of a list of decimal digit characters. -/
def digitsToNat (ds : List Char) : Nat :=
  ds.foldl (fun a c => a * 10 + (c.toNat - 48)) 0

/-- `strconv.Atoi`: an optional sign followed by at least one decimal
digit, rejected when the value overflows the 64-bit int range. -/
def atoi (s : String) : Option Int :=
  match s.data with
  | [] => none
  | c :: cs =>
    let signed : Bool × List Char :=
      if c = '-' then (true, cs)
      else if c = '+' then (false, cs)
      else (false, c :: cs)
    if signed.2 = [] then none
    else if signed.2.all Char.isDigit then
      let v : Int :=
        if signed.1 then -(digitsToNat signed.2 : Int) else (digitsToNat signed.2 : Int)
      if v < -(2 ^ 63) ∨ 2 ^ 63 - 1 < v then none else some v
    else none

/-- `OptionalParamOK` of the server helpers instantiated at `T = any`, as
`OptionalIntParam` calls it: an absent key returns the zero value (a nil
interface, here `null`) with `ok = false` and no error; a present key
runs the type assertion `val.(any)`, which fails exactly on a nil
interface value, producing the "parameter p is not of expected type %T,
got %T" error with both verbs printing `<nil>` (the zero of `any` and
the nil value) and `ok` forced to true because the key was present; any
other value passes the assertion unchanged. -/
def OptionalParamOKAny (args : Args) (p : String) :
    GoValue × Bool × Option ParamError :=
  match lookupKey args p with
  | none => (.null, false, none)
  | some .null => (.null, true, some (.wrongType p "<nil>" "<nil>"))
  | some val => (val, true, none)

/-- `OptionalIntParam` of the server helpers: the result of
`OptionalParamOK[any]` is checked for an error first (hit exactly by a
present null value) and for absence second; then the dynamic type is
switched on. A float64 passes the `v != float64(int(v))` round-trip
exactly when its value is a whole number that fits the 64-bit int range
(the Go conversion of an out-of-range float64 yields the architecture's
saturation value, 2 to the 63 negated on amd64, whose float64 image
differs from `v`); a native int passes through; a string is empty
(treated as absent, yielding 0) or parsed with `strconv.Atoi`; every
other type falls to the not-convertible default of the switch. An absent
key yields 0 with no error. -/
def OptionalIntParam (args : Args) (p : String) : Except ParamError Int :=
  match OptionalParamOKAny args p with
  | (_, _, some e) => .error e
  | (_, false, none) => .ok 0
  | (val, true, none) =>
    match val with
    | .num q =>
      if q.den = 1 ∧ -(2 ^ 63) ≤ q.num ∧ q.num ≤ 2 ^ 63 - 1 then .ok q.num
      else .error (.notWholeNumber p q)
    | .int n => .ok n
    | .str s =>
      if s = "" then .ok 0
      else
        match atoi s with
        | some n => .ok n
        | none => .error (.invalidIntegerString p s)
    | v => .error (.notConvertible p (goTypeName v))

/-- `OptionalIntParamWithDefault` of the server helpers: extraction errors
pass through; an extracted 0 falls into a branch that re-checks presence
twice and returns the default on every path; any other value is kept. -/
def OptionalIntParamWithDefault (args : Args) (p : String) (defaultValue : Int) :
    Except ParamError Int :=
  match OptionalIntParam args p with
  | .error e => .error e
  | .ok v =>
    if v = 0 then
      match lookupKey args p with
      | none => .ok defaultValue
      | some _ =>
        match lookupKey args p with
        | none => .ok defaultValue
        | some _ => .ok defaultValue
    else .ok v

/-- `DefaultPerPage` of the server helpers. -/
def DefaultPerPage : Int := 20

/-- `MaxPerPage` of the server helpers. -/
def MaxPerPage : Int := 100

/-- `OptionalPaginationParams` of the server helpers: the page from key
"page" with default 1, forced up to 1 when below 1; the page size from
key "per_page" with default `DefaultPerPage`, reset to the default when
below 1 and capped at `MaxPerPage` when above it; extraction errors are
wrapped with the parameter name. -/
def OptionalPaginationParams (args : Args) : Except ParamError (Int × Int) :=
  match OptionalIntParamWithDefault args "page" 1 with
  | .error e => .error (.invalidParam "page" e)
  | .ok page₀ =>
    let page := if page₀ < 1 then 1 else page₀
    match OptionalIntParamWithDefault args "per_page" DefaultPerPage with
    | .error e => .error (.invalidParam "per_page" e)
    | .ok perPage₀ =>
      let perPage :=
        if perPage₀ < 1 then DefaultPerPage
        else if MaxPerPage < perPage₀ then MaxPerPage
        else perPage₀
      .ok (page, perPage)

/-- C6: for every argument map and parameter name, `requiredParam`
fails with the missing-parameter error when the key is absent; fails with
the type-mismatch error naming both the expected and the actual dynamic
type when the key holds a value not of type `T`; fails with the
empty-value error when the value equals the zero value of `T`; and
otherwise returns the value unchanged. -/
theorem C6_requiredParam_spec {T : Type} [DecidableEq T] (g : GoType T)
    (args : Args) (p : String) :
    (lookupKey args p = none →
      requiredParam g args p = .error (.missingParameter p)) ∧
    (∀ v, lookupKey args p = some v → g.cast v = none →
      requiredParam g args p = .error (.wrongType p g.name (goTypeName v))) ∧
    (∀ v x, lookupKey args p = some v → g.cast v = some x → x = g.zero →
      requiredParam g args p = .error (.emptyValue p)) ∧
    (∀ v x, lookupKey args p = some v → g.cast v = some x → x ≠ g.zero →
      requiredParam g args p = .ok x) := by
  refine ⟨?_, ?_, ?_, ?_⟩
  · intro h
    simp [requiredParam, h]
  · intro v hv hc
    simp [requiredParam, hv, hc]
  · intro v x hv hc hz
    simp [requiredParam, hv, hc, hz]
  · intro v x hv hc hz
    simp [requiredParam, hv, hc, hz]

/-- C7 (amended): `OptionalIntParam` yields 0 with no error for an absent
key or an empty string; the integer value for a whole float64 inside the
64-bit int range, a native int, or a string `strconv.Atoi` accepts; the
whole-number error for any other float64 (a fractional part, or a whole
value outside the int range, whose int conversion fails the round-trip
check); the parse error for any other non-empty string; the
`OptionalParamOK` type-assertion error with expected and actual type
`<nil>` for a present null value; and the not-convertible error for
every other dynamic type. -/
theorem C7_OptionalIntParam_spec (args : Args) (p : String) :
    (lookupKey args p = none → OptionalIntParam args p = .ok 0) ∧
    (lookupKey args p = some (.str "") → OptionalIntParam args p = .ok 0) ∧
    (∀ q, lookupKey args p = some (.num q) →
      q.den = 1 → -(2 ^ 63) ≤ q.num → q.num ≤ 2 ^ 63 - 1 →
      OptionalIntParam args p = .ok q.num) ∧
    (∀ q, lookupKey args p = some (.num q) →
      ¬(q.den = 1 ∧ -(2 ^ 63) ≤ q.num ∧ q.num ≤ 2 ^ 63 - 1) →
      OptionalIntParam args p = .error (.notWholeNumber p q)) ∧
    (∀ n, lookupKey args p = some (.int n) → OptionalIntParam args p = .ok n) ∧
    (∀ s n, lookupKey args p = some (.str s) → atoi s = some n →
      OptionalIntParam args p = .ok n) ∧
    (∀ s, lookupKey args p = some (.str s) → s ≠ "" → atoi s = none →
      OptionalIntParam args p = .error (.invalidIntegerString p s)) ∧
    (lookupKey args p = some .null →
      OptionalIntParam args p = .error (.wrongType p "<nil>" "<nil>")) ∧
    (∀ b, lookupKey args p = some (.bool b) →
      OptionalIntParam args p = .error (.notConvertible p "bool")) := by
  refine ⟨?_, ?_, ?_, ?_, ?_, ?_, ?_, ?_, ?_⟩
  · intro h
    simp [OptionalIntParam, OptionalParamOKAny, h]
  · intro h
    simp [OptionalIntParam, OptionalParamOKAny, h]
  · intro q h hd h₁ h₂
    simp only [OptionalIntParam, OptionalParamOKAny, h]
    rw [if_pos ⟨hd, h₁, h₂⟩]
  · intro q h hcond
    simp only [OptionalIntParam, OptionalParamOKAny, h]
    rw [if_neg hcond]
  · intro n h
    simp [OptionalIntParam, OptionalParamOKAny, h]
  · intro s n h ha
    by_cases h0 : s = ""
    · subst h0
      exact absurd ha (by simp [atoi])
    · simp [OptionalIntParam, OptionalParamOKAny, h, h0, ha]
  · intro s h h0 ha
    simp [OptionalIntParam, OptionalParamOKAny, h, h0, ha]
  · intro h
    simp [OptionalIntParam, OptionalParamOKAny, h]
  · intro b h
    simp [OptionalIntParam, OptionalParamOKAny, h, goTypeName]

/-- The whole float64 value 10 to the 19th power, outside the 64-bit int
range yet exactly representable (its mantissa, 5 to the 19th, fits 53
bits). -/
def bigWhole : ℚ := ⟨10000000000000000000, 1, by norm_num, by norm_num⟩

/-- C7 counterexample: a present null value fails inside
`OptionalParamOK[any]` — the type assertion on a nil interface fails —
with the "not of expected type `<nil>`, got `<nil>`" error, not the
switch-default not-convertible error the claim names; and the whole
float64 value 10^19, outside the 64-bit int range, fails the
`v != float64(int(v))` round-trip with the whole-number error where the
claim demands the integer value be returned. -/
theorem C7_counterexample :
    OptionalIntParam [("n", GoValue.null)] "n" =
      .error (.wrongType "n" "<nil>" "<nil>") ∧
    (ParamError.wrongType "n" "<nil>" "<nil>" =
      ParamError.notConvertible "n" "<nil>" → False) ∧
    OptionalIntParam [("n", GoValue.num bigWhole)] "n" =
      .error (.notWholeNumber "n" bigWhole) := by
  decide

/-- C8: `OptionalIntParamWithDefault` returns the default whenever the key
is absent or the extracted integer is exactly 0 — covering the explicit
numeric zero, the string "0" and the empty string; returns the extracted
value when it is non-zero; and passes any extraction error through
unchanged. -/
theorem C8_OptionalIntParamWithDefault_spec (args : Args) (p : String) (d : Int) :
    (∀ e, OptionalIntParam args p = .error e →
      OptionalIntParamWithDefault args p d = .error e) ∧
    (OptionalIntParam args p = .ok 0 →
      OptionalIntParamWithDefault args p d = .ok d) ∧
    (∀ v, OptionalIntParam args p = .ok v → v ≠ 0 →
      OptionalIntParamWithDefault args p d = .ok v) ∧
    (lookupKey args p = none → OptionalIntParamWithDefault args p d = .ok d) ∧
    (lookupKey args p = some (.int 0) →
      OptionalIntParamWithDefault args p d = .ok d) ∧
    (lookupKey args p = some (.num 0) →
      OptionalIntParamWithDefault args p d = .ok d) ∧
    (lookupKey args p = some (.str "0") →
      OptionalIntParamWithDefault args p d = .ok d) ∧
    (lookupKey args p = some (.str "") →
      OptionalIntParamWithDefault args p d = .ok d) := by
  have hzero : ∀ h : OptionalIntParam args p = .ok 0,
      OptionalIntParamWithDefault args p d = .ok d := by
    intro h
    simp only [OptionalIntParamWithDefault, h, if_pos rfl]
    cases lookupKey args p <;> rfl
  refine ⟨?_, hzero, ?_, ?_, ?_, ?_, ?_, ?_⟩
  · intro e h
    simp [OptionalIntParamWithDefault, h]
  · intro v h hv
    simp [OptionalIntParamWithDefault, h, hv]
  · intro h
    exact hzero (by simp [OptionalIntParam, OptionalParamOKAny, h])
  · intro h
    exact hzero (by simp [OptionalIntParam, OptionalParamOKAny, h])
  · intro h
    refine hzero ?_
    simp only [OptionalIntParam, OptionalParamOKAny, h]
    rw [if_pos (by norm_num)]
    norm_num
  · intro h
    refine hzero ?_
    simp only [OptionalIntParam, OptionalParamOKAny, h]
    rw [if_neg (by decide), show atoi "0" = some 0 from by decide]
  · intro h
    exact hzero (by simp [OptionalIntParam, OptionalParamOKAny, h])

/-- Prepending an entry under a different key changes no lookup of `k`. -/
theorem lookupKey_cons_ne {β : Type} (k₀ : String) (v₀ : β)
    (m : List (String × β)) (k : String) (h : ¬k₀ = k) :
    lookupKey ((k₀, v₀) :: m) k = lookupKey m k := by
  simp [lookupKey, h]

/-- `OptionalParamOK[any]` reads only the entry of its own key. -/
theorem OptionalParamOKAny_cons_ne (k₀ : String) (v₀ : GoValue) (args : Args)
    (p : String) (h : ¬k₀ = p) :
    OptionalParamOKAny ((k₀, v₀) :: args) p = OptionalParamOKAny args p := by
  simp only [OptionalParamOKAny, lookupKey_cons_ne k₀ v₀ args p h]

/-- `OptionalIntParam` reads only the entry of its own key. -/
theorem OptionalIntParam_cons_ne (k₀ : String) (v₀ : GoValue) (args : Args)
    (p : String) (h : ¬k₀ = p) :
    OptionalIntParam ((k₀, v₀) :: args) p = OptionalIntParam args p := by
  simp only [OptionalIntParam, OptionalParamOKAny_cons_ne k₀ v₀ args p h]

/-- `OptionalIntParamWithDefault` reads only the entry of its own key. -/
theorem OptionalIntParamWithDefault_cons_ne (k₀ : String) (v₀ : GoValue)
    (args : Args) (p : String) (d : Int) (h : ¬k₀ = p) :
    OptionalIntParamWithDefault ((k₀, v₀) :: args) p d =
      OptionalIntParamWithDefault args p d := by
  simp only [OptionalIntParamWithDefault, OptionalIntParam_cons_ne k₀ v₀ args p h,
    lookupKey_cons_ne k₀ v₀ args p h]

/-- C9 (amended): `OptionalPaginationParams` takes the page from key
"page" (default 1) and the page size from key "per_page" only (default
`DefaultPerPage`); a page below 1 is silently reset to 1, a page size
below 1 is silently reset to the default and one above `MaxPerPage` is
silently capped there, never producing an error; an extraction error on
either key is wrapped with the parameter name; and an entry under the key
"perPage" is ignored entirely. -/
theorem C9_OptionalPaginationParams_spec (args : Args) :
    (∀ e, OptionalIntParamWithDefault args "page" 1 = .error e →
      OptionalPaginationParams args = .error (.invalidParam "page" e)) ∧
    (∀ x e, OptionalIntParamWithDefault args "page" 1 = .ok x →
      OptionalIntParamWithDefault args "per_page" DefaultPerPage = .error e →
      OptionalPaginationParams args = .error (.invalidParam "per_page" e)) ∧
    (∀ x y, OptionalIntParamWithDefault args "page" 1 = .ok x →
      OptionalIntParamWithDefault args "per_page" DefaultPerPage = .ok y →
      OptionalPaginationParams args =
        .ok (if x < 1 then 1 else x,
          if y < 1 then DefaultPerPage
          else if MaxPerPage < y then MaxPerPage else y)) ∧
    (∀ v, OptionalPaginationParams (("perPage", v) :: args) =
      OptionalPaginationParams args) := by
  refine ⟨?_, ?_, ?_, ?_⟩
  · intro e h
    simp [OptionalPaginationParams, h]
  · intro x e h₁ h₂
    simp [OptionalPaginationParams, h₁, h₂]
  · intro x y h₁ h₂
    simp [OptionalPaginationParams, h₁, h₂]
  · intro v
    simp only [OptionalPaginationParams,
      OptionalIntParamWithDefault_cons_ne "perPage" v args "page" 1 (by decide),
      OptionalIntParamWithDefault_cons_ne "perPage" v args "per_page" DefaultPerPage
        (by decide)]

/-- C9 counterexample: the claim states the page size is read from either
key "per_page" or key "perPage", but the source reads only "per_page": an
argument map carrying only `perPage = 50` yields the default page size
20, not 50. -/
theorem C9_counterexample :
    OptionalPaginationParams [("perPage", GoValue.int 50)] =
      .ok (1, DefaultPerPage) ∧
    (DefaultPerPage = 50 → False) := by
  decide

end GitlabMcp
